import Mathlib

/-!
Verification development for the zap ZCL metadata ingestion pipeline
(zcl-loader-silabs.js and its helpers). JavaScript functions from the
source are shallowly embedded as executable Lean definitions; numbers
produced by the JS parseInt are modelled as `Option Int`, where `none`
plays the role of NaN, and absent object fields or null values are
modelled with `Option`.
-/

namespace Zap

/-- JS number resulting from parseInt: `none` models NaN. -/
abbrev JSInt := Option Int

/-- Numeric value of a character for a given radix, as used by parseInt.
Returns 1000 (an invalid digit) for characters outside 0-9/a-z/A-Z. -/
def digitValue (c : Char) : Nat :=
  if '0' ≤ c ∧ c ≤ '9' then c.toNat - 48
  else if 'a' ≤ c ∧ c ≤ 'z' then c.toNat - 87
  else if 'A' ≤ c ∧ c ≤ 'Z' then c.toNat - 55
  else 1000

/-- Parse the maximal prefix of digits valid in the given radix; `none`
(NaN) when there is no valid leading digit, as in the JS parseInt. -/
def parseIntCore (radix : Nat) (cs : List Char) : Option Nat :=
  let ds := cs.takeWhile fun c => digitValue c < radix
  if ds.isEmpty then none
  else some (ds.foldl (fun acc c => acc * radix + digitValue c) 0)

/-- Radix detection of the JS parseInt when no radix argument is given:
a 0x/0X prefix selects hexadecimal, otherwise decimal. -/
def parseIntNoSign (cs : List Char) : Option Nat :=
  match cs with
  | '0' :: 'x' :: rest => parseIntCore 16 rest
  | '0' :: 'X' :: rest => parseIntCore 16 rest
  | _ => parseIntCore 10 cs

/-- The whitespace characters parseInt skips in front of the number. -/
def isJsSpace (c : Char) : Bool :=
  c = ' ' || c = '\t' || c = '\n' || c = '\r'

/-- Model of the JS `parseInt(s)` with automatic radix detection; leading
whitespace is skipped as parseInt does. -/
def parseIntAuto (s : String) : JSInt :=
  match s.toList.dropWhile isJsSpace with
  | '-' :: rest => (parseIntNoSign rest).map fun n => -(n : Int)
  | '+' :: rest => (parseIntNoSign rest).map fun n => (n : Int)
  | cs => (parseIntNoSign cs).map fun n => (n : Int)

/-- Model of the JS `parseInt(s, 16)`: an optional 0x/0X prefix is
accepted and the digits are read in base 16. -/
def parseIntRadix16 (s : String) : JSInt :=
  let noSign : List Char → Option Nat := fun cs =>
    match cs with
    | '0' :: 'x' :: rest => parseIntCore 16 rest
    | '0' :: 'X' :: rest => parseIntCore 16 rest
    | _ => parseIntCore 16 cs
  match s.toList.dropWhile isJsSpace with
  | '-' :: rest => (noSign rest).map fun n => -(n : Int)
  | '+' :: rest => (noSign rest).map fun n => (n : Int)
  | cs => (noSign cs).map fun n => (n : Int)

/-- Model of the JS `n.toString(16)` on an integer: lowercase hex digits,
with a minus sign in front for negative numbers. -/
def jsToStringRadix16 (n : Int) : String :=
  if n < 0 then "-" ++ (Nat.toDigits 16 n.natAbs).asString
  else (Nat.toDigits 16 n.toNat).asString

/-- Number of one bits, used by maskToType via bin.bitCount; NaN has no
bits set. -/
def jsBitCount (n : JSInt) : Nat :=
  match n with
  | none => 0
  | some i => ((Nat.toDigits 2 i.natAbs).count '1')

/- ********************************************************************
   XML input model: the intermediate tree the XML parser hands to the
   preparers. A field of the JS object that may be absent is an Option;
   `$` denotes the XML attribute record and is modelled as `attrs`.
   ******************************************************************** -/

/-- One globalAttribute XML entry of a cluster: ga.$ of the source. -/
structure XmlGlobalAttribute where
  code : String
  side : String
  value : String
deriving DecidableEq

/-- The `$` attribute record of a cluster or clusterExtension tag. -/
structure XmlClusterAttrs where
  code : Option String
  manufacturerCode : Option String
  singleton : Option String
  introducedIn : Option String
  removedIn : Option String
deriving DecidableEq

/-- The `$` attribute record of a command argument tag. -/
structure XmlArgAttrs where
  name : String
  type : String
  array : Option String
  presentIf : Option String
  countArg : Option String
  introducedIn : Option String
  removedIn : Option String
deriving DecidableEq

/-- The `$` attribute record of a command tag. -/
structure XmlCommandAttrs where
  code : String
  manufacturerCode : Option String
  name : String
  source : Option String
  optional : Option String
  introducedIn : Option String
  removedIn : Option String
deriving DecidableEq

/-- A command tag: attributes, description elements and optional args. -/
structure XmlCommand where
  attrs : XmlCommandAttrs
  description : List String
  arg : Option (List XmlArgAttrs)
deriving DecidableEq

/-- The `$` attribute record of an attribute tag. -/
structure XmlAttributeAttrs where
  code : String
  manufacturerCode : Option String
  type : String
  side : String
  define : Option String
  min : Option String
  max : Option String
  length : Option String
  writable : Option String
  default : Option String
  optional : Option String
  reportable : Option String
  sceneRequired : Option String
  introducedIn : Option String
  removedIn : Option String
  entryType : Option String
deriving DecidableEq

/-- An attribute tag: its `$` record plus its text (`attribute._`),
which carries the attribute name. -/
structure XmlAttribute where
  attrs : XmlAttributeAttrs
  text : String
deriving DecidableEq

/-- A cluster (or clusterExtension, or global) tag as parsed from XML.
Child elements arrive as lists; `attrs` models the optional `$`. -/
structure XmlCluster where
  code : List String
  name : List String
  description : List String
  define : List String
  domain : List String
  attrs : Option XmlClusterAttrs
  command : Option (List XmlCommand)
  «attribute» : Option (List XmlAttribute)
  globalAttribute : Option (List XmlGlobalAttribute)
deriving DecidableEq

/- ********************************************************************
   Preparers: pure transformations from the XML tree to insertion-ready
   rows, embedded from prepareCluster, prepareClusterGlobalAttribute,
   prepareStruct, prepareEnum and prepareBitmap of zcl-loader-silabs.js.
   ******************************************************************** -/

/-- A prepared command argument row (one element pushed onto cmd.args). -/
structure PreparedArg where
  name : String
  type : String
  isArray : Nat
  presentIf : Option String
  countArg : Option String
  ordinal : Nat
  introducedIn : Option String
  removedIn : Option String
deriving DecidableEq

/-- The object pushed onto cmd.args for the source argument at position
i, exactly the fields of the push in prepareCluster. -/
def prepareArg (i : Nat) (arg : XmlArgAttrs) : PreparedArg :=
  { name := arg.name
    type := arg.type
    isArray := if arg.array == some "true" then 1 else 0
    presentIf := arg.presentIf
    countArg := arg.countArg
    ordinal := i
    introducedIn := arg.introducedIn
    removedIn := arg.removedIn }

/-- The command.arg.forEach loop of prepareCluster: an argument is pushed
only when its removedIn XML attribute is absent, and the ordinal it
receives is its position in the source list. -/
def prepareArgs (args : List XmlArgAttrs) : List PreparedArg :=
  (args.enum.filter fun p => p.2.removedIn.isNone).map fun p => prepareArg p.1 p.2

/-- A prepared command row of prepareCluster. -/
structure PreparedCommand where
  code : JSInt
  manufacturerCode : Option JSInt
  name : String
  description : String
  source : Option String
  isOptional : Bool
  introducedIn : Option String
  removedIn : Option String
  args : Option (List PreparedArg)
deriving DecidableEq

/-- The manufacturer code the prepared cluster record carries at the time
its commands and attributes are prepared: extensions never set it; a base
cluster parses its own manufacturerCode XML attribute when present. -/
def clusterManufacturerCode (cluster : XmlCluster) (isExtension : Bool) : Option JSInt :=
  if isExtension then none
  else match cluster.attrs with
    | none => none
    | some a =>
      match a.manufacturerCode with
      | none => none
      | some s => some (parseIntAuto s)

/-- One iteration of the cluster.command.forEach loop of prepareCluster;
clusterMfg is ret.manufacturerCode of the enclosing cluster. -/
def prepareCommand (clusterMfg : Option JSInt) (command : XmlCommand) : PreparedCommand :=
  { code := parseIntAuto command.attrs.code
    manufacturerCode :=
      match command.attrs.manufacturerCode with
      | none => clusterMfg
      | some s => some (parseIntAuto s)
    name := command.attrs.name
    description := (command.description.headD "").trim
    source := command.attrs.source
    isOptional := command.attrs.optional == some "true"
    introducedIn := command.attrs.introducedIn
    removedIn := command.attrs.removedIn
    args := command.arg.map prepareArgs }

/-- A prepared attribute row of prepareCluster. -/
structure PreparedAttribute where
  code : JSInt
  manufacturerCode : Option JSInt
  name : String
  type : String
  side : String
  define : Option String
  min : Option String
  max : Option String
  minLength : Nat
  maxLength : Option String
  isWritable : Bool
  defaultValue : Option String
  isOptional : Bool
  isReportable : Bool
  isSceneRequired : Bool
  introducedIn : Option String
  removedIn : Option String
  entryType : Option String
deriving DecidableEq

/-- One iteration of the cluster.attribute.forEach loop of
prepareCluster; the JS truthiness test on attribute.$.length maps the
empty string and an absent value to null. -/
def prepareAttribute (clusterMfg : Option JSInt) (att : XmlAttribute) : PreparedAttribute :=
  { code := parseIntAuto att.attrs.code
    manufacturerCode :=
      match att.attrs.manufacturerCode with
      | none => clusterMfg
      | some s => some (parseIntAuto s)
    name := att.text
    type := att.attrs.type.toLower
    side := att.attrs.side
    define := att.attrs.define
    min := att.attrs.min
    max := att.attrs.max
    minLength := 0
    maxLength :=
      match att.attrs.length with
      | none => none
      | some l => if l = "" then none else some l
    isWritable := att.attrs.writable == some "true"
    defaultValue := att.attrs.default
    isOptional := att.attrs.optional == some "true"
    isReportable := att.attrs.reportable == some "true"
    isSceneRequired := att.attrs.sceneRequired == some "true"
    introducedIn := att.attrs.introducedIn
    removedIn := att.attrs.removedIn
    entryType := att.attrs.entryType }

/-- The object prepareCluster returns; fields an extension leaves
undefined are none, and booleans default to false as in the source. -/
structure PreparedCluster where
  isExtension : Bool
  code : Option JSInt
  name : Option String
  description : Option String
  define : Option String
  domain : Option String
  isSingleton : Bool
  manufacturerCode : Option JSInt
  introducedIn : Option String
  removedIn : Option String
  commands : Option (List PreparedCommand)
  attributes : Option (List PreparedAttribute)
deriving DecidableEq

/-- Embedding of prepareCluster(cluster, isExtension). An attribute row
is kept only when its removedIn marker is absent; the filter runs on the
prepared row, whose removedIn field copies the source attribute. -/
def prepareCluster (cluster : XmlCluster) (isExtension : Bool) : PreparedCluster :=
  let mfg := clusterManufacturerCode cluster isExtension
  { isExtension := isExtension
    code :=
      if isExtension then
        match cluster.attrs with
        | some a =>
          match a.code with
          | some c => some (parseIntAuto c)
          | none => none
        | none => none
      else some (parseIntAuto (cluster.code.headD ""))
    name := if isExtension then none else some (cluster.name.headD "")
    description := if isExtension then none else some ((cluster.description.headD "").trim)
    define := if isExtension then none else some (cluster.define.headD "")
    domain := if isExtension then none else some (cluster.domain.headD "")
    isSingleton :=
      if isExtension then false
      else
        match cluster.attrs with
        | some a => a.singleton == some "true"
        | none => false
    manufacturerCode := mfg
    introducedIn := if isExtension then none else cluster.attrs.bind fun a => a.introducedIn
    removedIn := if isExtension then none else cluster.attrs.bind fun a => a.removedIn
    commands := cluster.command.map fun cmds => cmds.map (prepareCommand mfg)
    attributes := cluster.«attribute».map fun atts =>
      (atts.map (prepareAttribute mfg)).filter fun att => att.removedIn.isNone }

/-- One row of the globalAttribute list prepared for insertion. -/
structure GlobalAttributeRow where
  code : JSInt
  side : String
  value : String
deriving DecidableEq

/-- The record prepareClusterGlobalAttribute returns when the cluster
carries a globalAttribute tag. -/
structure PreparedGlobalAttribute where
  code : JSInt
  manufacturerCode : Option String
  globalAttribute : List GlobalAttributeRow
deriving DecidableEq

/-- One iteration of the cluster.globalAttribute.forEach loop: an entry
with side either is pushed twice, as a client row and a server row with
the same code and value; any other side is pushed once unchanged. -/
def expandGlobalAttribute (ga : XmlGlobalAttribute) : List GlobalAttributeRow :=
  if ga.side = "either" then
    [{ code := parseIntAuto ga.code, side := "client", value := ga.value },
     { code := parseIntAuto ga.code, side := "server", value := ga.value }]
  else
    [{ code := parseIntAuto ga.code, side := ga.side, value := ga.value }]

/-- Embedding of prepareClusterGlobalAttribute: none when the cluster has
no globalAttribute tag; the cluster code is parsed with radix 16. -/
def prepareClusterGlobalAttribute (cluster : XmlCluster) : Option PreparedGlobalAttribute :=
  match cluster.globalAttribute with
  | none => none
  | some gas => some
    { code := parseIntRadix16 (cluster.code.headD "")
      manufacturerCode := cluster.attrs.bind fun a => a.manufacturerCode
      globalAttribute := gas.flatMap expandGlobalAttribute }

/-- An item tag of a struct: its `$` record. -/
structure XmlStructItem where
  name : String
  type : String
  entryType : Option String
  length : Option String
  writable : Option String
deriving DecidableEq

/-- A struct tag: name from `$` and optional item list. -/
structure XmlStruct where
  name : String
  item : Option (List XmlStructItem)
deriving DecidableEq

/-- A prepared struct item row. -/
structure PreparedStructItem where
  name : String
  type : String
  ordinal : Nat
  entryType : Option String
  minLength : Nat
  maxLength : Option String
  isWritable : Bool
deriving DecidableEq

/-- The prepared struct object of prepareStruct. -/
structure PreparedStruct where
  name : String
  items : Option (List PreparedStructItem)
deriving DecidableEq

/-- The object pushed onto ret.items for the struct item at position i. -/
def prepareStructItem (i : Nat) (item : XmlStructItem) : PreparedStructItem :=
  { name := item.name
    type := item.type
    ordinal := i
    entryType := item.entryType
    minLength := 0
    maxLength :=
      match item.length with
      | none => none
      | some l => if l = "" then none else some l
    isWritable := item.writable == some "true" }

/-- Embedding of prepareStruct: each item receives its source position as
its ordinal. -/
def prepareStruct (struct : XmlStruct) : PreparedStruct :=
  { name := struct.name
    items := struct.item.map fun items =>
      items.enum.map fun p => prepareStructItem p.1 p.2 }

/-- An item tag of an enum: its `$` record. -/
structure XmlEnumItem where
  name : String
  value : String
deriving DecidableEq

/-- An enum tag: name and type from `$` and optional item list. -/
structure XmlEnum where
  name : String
  type : String
  item : Option (List XmlEnumItem)
deriving DecidableEq

/-- A prepared enum item row. -/
structure PreparedEnumItem where
  name : String
  value : JSInt
  ordinal : Nat
deriving DecidableEq

/-- The prepared enum object of prepareEnum. -/
structure PreparedEnum where
  name : String
  type : String
  items : Option (List PreparedEnumItem)
deriving DecidableEq

/-- The object pushed onto ret.items for the enum item at position i. -/
def prepareEnumItem (i : Nat) (item : XmlEnumItem) : PreparedEnumItem :=
  { name := item.name
    value := parseIntAuto item.value
    ordinal := i }

/-- Embedding of prepareEnum: each item receives its source position as
its ordinal. -/
def prepareEnum (en : XmlEnum) : PreparedEnum :=
  { name := en.name
    type := en.type
    items := en.item.map fun items =>
      items.enum.map fun p => prepareEnumItem p.1 p.2 }

/-- A field tag of a bitmap: its `$` record. -/
structure XmlBitmapField where
  name : String
  mask : String
deriving DecidableEq

/-- A bitmap tag: name and type from `$` and optional field list. -/
structure XmlBitmap where
  name : String
  type : String
  field : Option (List XmlBitmapField)
deriving DecidableEq

/-- A prepared bitmap field row. -/
structure PreparedBitmapField where
  name : String
  mask : JSInt
  type : String
  ordinal : Nat
deriving DecidableEq

/-- The prepared bitmap object of prepareBitmap. -/
structure PreparedBitmap where
  name : String
  type : String
  fields : Option (List PreparedBitmapField)
deriving DecidableEq

/-- Embedding of maskToType: a synthesized type from the bit count of the
mask. -/
def maskToType (mask : String) : String :=
  let bitCount := jsBitCount (parseIntAuto mask)
  if bitCount ≤ 1 then "bool"
  else if bitCount ≤ 8 then "enum8"
  else if bitCount ≤ 16 then "enum16"
  else "enum32"

/-- The object pushed onto ret.fields for the bitmap field at position
i. -/
def prepareBitmapField (i : Nat) (field : XmlBitmapField) : PreparedBitmapField :=
  { name := field.name
    mask := parseIntAuto field.mask
    type := maskToType field.mask
    ordinal := i }

/-- Embedding of prepareBitmap: each field receives its source position
as its ordinal. -/
def prepareBitmap (bm : XmlBitmap) : PreparedBitmap :=
  { name := bm.name
    type := bm.type
    fields := bm.field.map fun fields =>
      fields.enum.map fun p => prepareBitmapField p.1 p.2 }

/- ********************************************************************
   Byte-formatting helper (generator helper library).
   ******************************************************************** -/

/-- An uppercase hexadecimal digit character. -/
def hexDigitUpper (n : Nat) : Char :=
  if n < 10 then Char.ofNat (48 + n) else Char.ofNat (55 + n)

/-- A single byte rendered as 0x followed by two uppercase hex digits. -/
def hexByte (n : Nat) : String :=
  String.mk ['0', 'x', hexDigitUpper ((n / 16) % 16), hexDigitUpper (n % 16)]

/-- A character code rendered in hex, zero-padded to two digits. -/
def charHex (c : Char) : String :=
  if c.toNat < 256 then hexByte c.toNat
  else "0x" ++ (Nat.toDigits 16 c.toNat).asString

/-- Modelled from the spec: the table of recognized fixed-width ZCL type
names and their byte widths, used by the bytesForValue helper of
helper-c.js, whose implementation is not part of the sources at hand. -/
def typeWidth (t : String) : Option Nat :=
  match t with
  | "boolean" => some 1
  | "bitmap8" => some 1
  | "enum8" => some 1
  | "int8u" => some 1
  | "int8s" => some 1
  | "bitmap16" => some 2
  | "enum16" => some 2
  | "int16u" => some 2
  | "int16s" => some 2
  | "int24u" => some 3
  | "int24s" => some 3
  | "bitmap32" => some 4
  | "enum32" => some 4
  | "int32u" => some 4
  | "int32s" => some 4
  | _ => none

/-- Modelled from the spec: bytesForValue (the asBytes helper of
helper-c.js, not among the sources at hand). For a recognized
fixed-width type it returns exactly width comma-separated 2-digit hex
bytes, most significant byte first, zero-padded. For an unrecognized
type it returns the character codes of the value in hex, comma
separated, followed by a 0x00 padding byte; a null value yields 0x00. -/
def bytesForValue (value : Option String) (typeName : String) : String :=
  match typeWidth typeName with
  | some w =>
    let n : Nat :=
      match value with
      | some s => ((parseIntAuto s).getD 0).toNat
      | none => 0
    String.intercalate ", "
      ((List.range w).map fun i => hexByte ((n / 256 ^ (w - 1 - i)) % 256))
  | none =>
    match value with
    | none => "0x00"
    | some s => String.intercalate ", " (s.toList.map charHex ++ ["0x00"])

/- ********************************************************************
   Option/default resolution (parseTextDefaults of zcl-loader-silabs.js).
   ******************************************************************** -/

/-- A JS value a default declaration can hold: a string or a number, as
distinguished by the lodash isNumber test in the source. -/
inductive JSVal where
  | str (s : String)
  | num (n : Int)
deriving DecidableEq, BEq

/-- Rendering of a JSVal in the error message string. -/
def jsValText : JSVal → String
  | .str s => s
  | .num n => toString n

/-- A previously inserted option row of the package: category, option
code value and row id. -/
structure OptionRow where
  category : String
  value : JSVal
  id : Nat
deriving DecidableEq, BEq

/-- Model of queryPackage.selectSpecificOptionValue: the first option row
of the package whose category and code match exactly. -/
def selectSpecificOptionValue (db : List OptionRow) (optionCategory : String)
    (v : JSVal) : Option OptionRow :=
  db.find? fun r => r.category == optionCategory && r.value == v

/-- Resolution of one declared text default, embedded from the promise
chain of parseTextDefaults: exact lookup first; on a miss, a numeric
value is retried as a 0x-prefixed hex string; a second miss throws. The
ok payload is the matched row id handed to insertDefaultOptionValue. -/
def parseTextDefaultOne (db : List OptionRow) (optionCategory : String)
    (txt : JSVal) : Except String Nat :=
  match selectSpecificOptionValue db optionCategory txt with
  | some row => Except.ok row.id
  | none =>
    match txt with
    | JSVal.num n =>
      match selectSpecificOptionValue db optionCategory
          (JSVal.str ("0x" ++ jsToStringRadix16 n)) with
      | some row => Except.ok row.id
      | none => Except.error ("Default value for: " ++ optionCategory ++ "/"
          ++ jsValText txt ++ " does not match an option.")
    | JSVal.str s => Except.error ("Default value for: " ++ optionCategory ++ "/"
        ++ s ++ " does not match an option.")

/-- parseTextDefaults over the whole defaults map: every declared default
must resolve; a rejection of any entry rejects the aggregate, as with
the Promise.all of the source. -/
def parseTextDefaults (db : List OptionRow) :
    List (String × JSVal) → Except String (List Nat)
  | [] => Except.ok []
  | e :: rest =>
    match parseTextDefaultOne db e.1 e.2 with
    | Except.error msg => Except.error msg
    | Except.ok idv =>
      match parseTextDefaults db rest with
      | Except.error msg => Except.error msg
      | Except.ok ids => Except.ok (idv :: ids)

/- ********************************************************************
   Standalone single-file ingestion (loadIndividualSilabsFile).
   ******************************************************************** -/

/-- The validation object a bound validator returns. -/
structure Validation where
  isValid : Bool
deriving DecidableEq

/-- The record qualifyZclFile resolves with: the standalone package id
and, when the file content is fresh, the data to parse. -/
structure QualifyResult where
  packageId : Nat
  data : Option String
deriving DecidableEq

/-- Outcomes of the effectful steps loadIndividualSilabsFile performs, so
that every execution of the function corresponds to one value of this
environment: a failing step is an error value (a rejected promise). -/
structure IndivEnv where
  readFile : Except String String
  qualify : Except String QualifyResult
  boundValidator : Option (String → Validation)
  parseXml : String → Except String Unit
  processData : Except String Unit
  postLoading : Except String Unit

/-- The discriminated result of the standalone load. -/
inductive LoadResult where
  | succeeded (packageId : Nat)
  | failed (err : String)
deriving DecidableEq

/-- The body of the try block of loadIndividualSilabsFile: read the file,
qualify it, run the bound validator when one is given, parse the XML
when data is fresh, throw when validation failed, then process and
post-load, resolving with the package id. -/
def runIndividualLoad (env : IndivEnv) : Except String Nat :=
  match env.readFile with
  | Except.error e => Except.error e
  | Except.ok content =>
    match env.qualify with
    | Except.error e => Except.error e
    | Except.ok q =>
      let validation : Option Validation :=
        match env.boundValidator with
        | some v => some (v content)
        | none => none
      let parsed : Except String Unit :=
        match q.data with
        | some d => env.parseXml d
        | none => Except.ok ()
      match parsed with
      | Except.error e => Except.error e
      | Except.ok _ =>
        let validationFailed : Bool :=
          match validation with
          | some val => val.isValid == false
          | none => false
        if validationFailed then Except.error "Validation Failed"
        else
          match env.processData with
          | Except.error e => Except.error e
          | Except.ok _ =>
            match env.postLoading with
            | Except.error e => Except.error e
            | Except.ok _ => Except.ok q.packageId

/-- Embedding of loadIndividualSilabsFile: the whole body runs inside a
try/catch whose catch clause returns the failure record, so the caller
always receives a discriminated result and never an exception. -/
def loadIndividualSilabsFile (env : IndivEnv) : LoadResult :=
  match runIndividualLoad env with
  | Except.ok p => LoadResult.succeeded p
  | Except.error e => LoadResult.failed e

/- ********************************************************************
   Manifest-driven load transaction behavior (loadSilabsZcl).
   ******************************************************************** -/

/-- Operations loadSilabsZcl issues against the relational store. -/
inductive DbOp where
  | beginTransaction
  | commit
  | rollback
  | insert (table : String)
deriving DecidableEq

/-- One step of the body of the try block of loadSilabsZcl (such as
recordToplevelPackage or parseZclFiles): the store operations the step
performs before it either returns or throws err. -/
structure LoadStep where
  ops : List DbOp
  err : Option String
deriving DecidableEq

/-- Sequential execution of the try-block steps: each step performs its
operations; the first throwing step aborts the rest, and its error is
the rejection the catch clause rethrows. -/
def runSteps : List LoadStep → Except String Unit × List DbOp
  | [] => (Except.ok (), [])
  | s :: rest =>
    match s.err with
    | some e => (Except.error e, s.ops)
    | none =>
      let r := runSteps rest
      (r.1, s.ops ++ r.2)

/-- Embedding of the transaction skeleton of loadSilabsZcl: it begins a
transaction, runs the steps inside try, logs and rethrows any error in
catch, and calls dbCommit in finally, on the failing path as well; no
rollback call exists in the function. -/
def loadSilabsZcl (steps : List LoadStep) : Except String Unit × List DbOp :=
  let r := runSteps steps
  (r.1, DbOp.beginTransaction :: (r.2 ++ [DbOp.commit]))

/- ********************************************************************
   Phase ordering of parseZclFiles / processParsedZclData.
   ******************************************************************** -/

/-- An event of the ingestion schedule: the initiation or the completion
of the insertion work a file performs in one phase. -/
inductive Ev where
  | start (phase : Nat) (file : Nat)
  | finish (phase : Nat) (file : Nat)
deriving DecidableEq

/-- Event a occurs strictly before event b in trace t. -/
def happensBefore (t : List Ev) (a b : Ev) : Prop :=
  a ∈ t ∧ b ∈ t ∧ t.indexOf a < t.indexOf b

/-- The phase-1 and phase-2 events of one file. -/
def phase12Events (f : Nat) : List Ev :=
  [Ev.start 1 f, Ev.finish 1 f, Ev.start 2 f, Ev.finish 2 f]

/-- The phase-3 events of one file. -/
def phase3Events (f : Nat) : List Ev :=
  [Ev.start 3 f, Ev.finish 3 f]

/-- t is an interleaving of exactly the events of ref: same events, each
occurring once. -/
def interleaving (ref : List Ev) (t : List Ev) : Prop :=
  t.Nodup ∧ (∀ e ∈ t, e ∈ ref) ∧ (∀ e ∈ ref, e ∈ t)

/-- Admissible schedules of the per-file work before the join in
parseZclFiles: processParsedZclData initiates the phase-1 and phase-2
insertions of its file in one synchronous body, with no barrier between
the two phases and none across files, so the only order the code imposes
is that each insertion starts before it completes. -/
def fileBody (files : List Nat) (t : List Ev) : Prop :=
  interleaving (files.flatMap phase12Events) t ∧
    ∀ f ∈ files,
      happensBefore t (Ev.start 1 f) (Ev.finish 1 f) ∧
      happensBefore t (Ev.start 2 f) (Ev.finish 2 f)

/-- Admissible schedules of the deferred phase-3 thunks, which are only
invoked after the global join. -/
def thunkBody (files : List Nat) (t : List Ev) : Prop :=
  interleaving (files.flatMap phase3Events) t ∧
    ∀ f ∈ files, happensBefore t (Ev.start 3 f) (Ev.finish 3 f)

instance (t : List Ev) (a b : Ev) : Decidable (happensBefore t a b) := by
  unfold happensBefore; exact inferInstance

instance (ref t : List Ev) : Decidable (interleaving ref t) := by
  unfold interleaving; exact inferInstance

instance (files : List Nat) (t : List Ev) : Decidable (fileBody files t) := by
  unfold fileBody; exact inferInstance

instance (files : List Nat) (t : List Ev) : Decidable (thunkBody files t) := by
  unfold thunkBody; exact inferInstance

/-- An admissible schedule of parseZclFiles over the given files: first
an interleaving of every phase-1 and phase-2 insertion of every file,
then, after Promise.all over the file promises resolves, an interleaving
of the phase-3 thunk invocations. -/
def parseZclFilesTrace (files : List Nat) (t : List Ev) : Prop :=
  ∃ t₁ t₂, t = t₁ ++ t₂ ∧ fileBody files t₁ ∧ thunkBody files t₂

/- ********************************************************************
   Helper lemmas.
   ******************************************************************** -/

/-- Membership in the prepared args list: exactly the source arguments
without a removedIn marker appear, prepared at their source position. -/
lemma mem_prepareArgs_iff {args : List XmlArgAttrs} {p : PreparedArg} :
    p ∈ prepareArgs args ↔
      ∃ i a, args[i]? = some a ∧ a.removedIn = none ∧ p = prepareArg i a := by
  simp only [prepareArgs, List.mem_map, List.mem_filter, Prod.exists]
  constructor
  · rintro ⟨i, a, ⟨hmem, hnone⟩, rfl⟩
    exact ⟨i, a, List.mk_mem_enum_iff_getElem?.mp hmem,
      Option.isNone_iff_eq_none.mp hnone, rfl⟩
  · rintro ⟨i, a, hget, hnone, rfl⟩
    exact ⟨i, a, ⟨List.mk_mem_enum_iff_getElem?.mpr hget,
      Option.isNone_iff_eq_none.mpr hnone⟩, rfl⟩

/-- Mapping an ordinal-assigning function over an enumerated list and
projecting the ordinal back recovers the positions 0..N-1. -/
lemma enum_map_ordinal {α β : Type} (l : List α) (f : Nat × α → β) (g : β → Nat)
    (h : ∀ p, g (f p) = p.1) : (l.enum.map f).map g = List.range l.length := by
  rw [List.map_map]
  have hfg : g ∘ f = Prod.fst := funext h
  rw [hfg]
  simp

/-- Every store operation of a step run belongs to one of the steps. -/
lemma runSteps_ops_mem :
    ∀ (steps : List LoadStep) (op : DbOp),
      op ∈ (runSteps steps).2 → ∃ s ∈ steps, op ∈ s.ops := by
  intro steps
  induction steps with
  | nil => intro op h; simp [runSteps] at h
  | cons s rest ih =>
    intro op h
    simp only [runSteps] at h
    cases hs : s.err with
    | some e =>
      rw [hs] at h
      exact ⟨s, List.mem_cons_self s rest, h⟩
    | none =>
      rw [hs] at h
      rcases List.mem_append.mp h with h1 | h2
      · exact ⟨s, List.mem_cons_self s rest, h1⟩
      · obtain ⟨t, ht, hop⟩ := ih op h2
        exact ⟨t, List.mem_cons_of_mem s ht, hop⟩

/- ********************************************************************
   Claim theorems.
   ******************************************************************** -/

/-- C8: the byte-formatting helper turns the decimal string 6 at the
recognized one-byte type int8u into the single zero-padded hex byte
0x06; a null value at an unrecognized type yields the padding byte 0x00
alone; and the string 9 at an unrecognized type yields the hex character
codes of the value followed by the padding byte: 0x39, 0x00. -/
theorem bytesForValue_byte_formatting :
    bytesForValue (some "6") "int8u" = "0x06" ∧
    bytesForValue none "unknown" = "0x00" ∧
    bytesForValue (some "9") "unknown" = "0x39, 0x00" :=
  ⟨by decide, by decide, by decide⟩

/-- C9: prepareStruct, prepareEnum and prepareBitmap assign each child
item its source position as its ordinal, so a composite with N children
in source order stores the ordinal sequence 0..N-1 in source order. -/
theorem prepare_ordinals_by_position :
    (∀ (struct : XmlStruct) (items : List XmlStructItem),
      struct.item = some items →
      ∃ pitems, (prepareStruct struct).items = some pitems ∧
        pitems.map PreparedStructItem.ordinal = List.range items.length ∧
        pitems.length = items.length) ∧
    (∀ (en : XmlEnum) (items : List XmlEnumItem),
      en.item = some items →
      ∃ pitems, (prepareEnum en).items = some pitems ∧
        pitems.map PreparedEnumItem.ordinal = List.range items.length ∧
        pitems.length = items.length) ∧
    (∀ (bm : XmlBitmap) (fields : List XmlBitmapField),
      bm.field = some fields →
      ∃ pfields, (prepareBitmap bm).fields = some pfields ∧
        pfields.map PreparedBitmapField.ordinal = List.range fields.length ∧
        pfields.length = fields.length) := by
  refine ⟨?_, ?_, ?_⟩
  · intro struct items hitem
    have hx : (prepareStruct struct).items =
        some (items.enum.map fun p => prepareStructItem p.1 p.2) := by
      simp [prepareStruct, hitem]
    refine ⟨_, hx, ?_, by simp⟩
    exact enum_map_ordinal items _ PreparedStructItem.ordinal fun p => rfl
  · intro en items hitem
    have hx : (prepareEnum en).items =
        some (items.enum.map fun p => prepareEnumItem p.1 p.2) := by
      simp [prepareEnum, hitem]
    refine ⟨_, hx, ?_, by simp⟩
    exact enum_map_ordinal items _ PreparedEnumItem.ordinal fun p => rfl
  · intro bm fields hfield
    have hx : (prepareBitmap bm).fields =
        some (fields.enum.map fun p => prepareBitmapField p.1 p.2) := by
      simp [prepareBitmap, hfield]
    refine ⟨_, hx, ?_, by simp⟩
    exact enum_map_ordinal fields _ PreparedBitmapField.ordinal fun p => rfl

/-- A struct input used to instantiate the ordinal theorems. -/
def sampleStructItems : List XmlStructItem :=
  [{ name := "fieldA", type := "int8u", entryType := none, length := none, writable := none },
   { name := "fieldB", type := "int16u", entryType := none, length := none, writable := none }]

/-- A struct tag carrying the sample items. -/
def sampleStruct : XmlStruct := { name := "Protocol", item := some sampleStructItems }

/-- Witness for C9 at a concrete two-item struct. -/
theorem prepare_ordinals_by_position_witness :
    ∃ pitems, (prepareStruct sampleStruct).items = some pitems ∧
      pitems.map PreparedStructItem.ordinal = List.range sampleStructItems.length ∧
      pitems.length = sampleStructItems.length :=
  prepare_ordinals_by_position.1 sampleStruct sampleStructItems rfl

/-- C4: within a prepared command, a source argument carrying a
removedIn marker is never pushed onto the args list, an argument without
one always is, and a command args list is exactly the prepared source
list. -/
theorem prepareCluster_removed_args_excluded :
    ∀ args : List XmlArgAttrs,
      (∀ p ∈ prepareArgs args, p.removedIn = none) ∧
      (∀ i a, args[i]? = some a →
        (a.removedIn = none ↔
          ∃ p ∈ prepareArgs args, p.ordinal = i ∧ p.name = a.name)) ∧
      (∀ mfg command, (prepareCommand mfg command).args = command.arg.map prepareArgs) := by
  intro args
  refine ⟨?_, ?_, fun _ _ => rfl⟩
  · intro p hp
    obtain ⟨i, a, hget, hnone, rfl⟩ := mem_prepareArgs_iff.mp hp
    simpa [prepareArg] using hnone
  · intro i a hget
    constructor
    · intro hnone
      exact ⟨prepareArg i a, mem_prepareArgs_iff.mpr ⟨i, a, hget, hnone, rfl⟩, rfl, rfl⟩
    · rintro ⟨p, hp, hord, hname⟩
      obtain ⟨j, b, hgetb, hnoneb, rfl⟩ := mem_prepareArgs_iff.mp hp
      have hj : j = i := hord
      subst hj
      have hba : some b = some a := hgetb.symm.trans hget
      cases hba
      exact hnoneb

/-- An argument marked as removed at a version. -/
def removedArg : XmlArgAttrs :=
  { name := "removedField", type := "int8u", array := none, presentIf := none,
    countArg := none, introducedIn := none, removedIn := some "zcl-7.0" }

/-- An argument with no removedIn marker. -/
def keptArg : XmlArgAttrs :=
  { name := "keptField", type := "int8u", array := none, presentIf := none,
    countArg := none, introducedIn := none, removedIn := none }

/-- An argument list whose first entry is removed and second is kept. -/
def mixedArgs : List XmlArgAttrs := [removedArg, keptArg]

/-- Witness for C4: the kept argument at source position 1 appears in
the prepared list with ordinal 1. -/
theorem prepareCluster_removed_args_excluded_witness :
    ∃ p ∈ prepareArgs mixedArgs, p.ordinal = 1 ∧ p.name = keptArg.name :=
  ((prepareCluster_removed_args_excluded mixedArgs).2.1 1 keptArg rfl).mp rfl

/-- C10: a surviving argument keeps its original source position as its
ordinal, so when an earlier argument is removed the stored ordinal
sequence has gaps and is not the contiguous range 0..k-1. -/
theorem prepareArgs_ordinals_keep_source_positions :
    (∀ (args : List XmlArgAttrs) (p : PreparedArg), p ∈ prepareArgs args →
      ∃ a, args[p.ordinal]? = some a ∧ a.removedIn = none ∧ p = prepareArg p.ordinal a) ∧
    (∃ args : List XmlArgAttrs,
      (prepareArgs args).length = 1 ∧
      (prepareArgs args).map PreparedArg.ordinal ≠
        List.range (prepareArgs args).length) := by
  constructor
  · intro args p hp
    obtain ⟨i, a, hget, hnone, rfl⟩ := mem_prepareArgs_iff.mp hp
    exact ⟨a, hget, hnone, rfl⟩
  · exact ⟨mixedArgs, by decide, by decide⟩

/-- Witness for C10 at the concrete mixed argument list: the sole
surviving argument sits at ordinal 1. -/
theorem prepareArgs_ordinals_keep_source_positions_witness :
    ∃ a, mixedArgs[(prepareArg 1 keptArg).ordinal]? = some a ∧
      a.removedIn = none ∧ prepareArg 1 keptArg = prepareArg (prepareArg 1 keptArg).ordinal a :=
  prepareArgs_ordinals_keep_source_positions.1 mixedArgs (prepareArg 1 keptArg) (by decide)

/-- C3: a globalAttribute entry with side either expands into exactly
two prepared rows, a client row and a server row carrying the same code
and the same value; an entry with any other side yields exactly one row
with that side; the prepared list is the concatenation of these
expansions. -/
theorem prepareClusterGlobalAttribute_either_expansion :
    ∀ (cluster : XmlCluster) (gas : List XmlGlobalAttribute)
      (r : PreparedGlobalAttribute),
      cluster.globalAttribute = some gas →
      prepareClusterGlobalAttribute cluster = some r →
      r.globalAttribute = gas.flatMap expandGlobalAttribute ∧
      ∀ ga ∈ gas,
        (ga.side = "either" →
          expandGlobalAttribute ga =
            [{ code := parseIntAuto ga.code, side := "client", value := ga.value },
             { code := parseIntAuto ga.code, side := "server", value := ga.value }]) ∧
        (ga.side ≠ "either" →
          expandGlobalAttribute ga =
            [{ code := parseIntAuto ga.code, side := ga.side, value := ga.value }]) := by
  intro cluster gas r hga hr
  rw [prepareClusterGlobalAttribute, hga] at hr
  cases hr
  refine ⟨rfl, ?_⟩
  intro ga _
  constructor
  · intro hside
    simp [expandGlobalAttribute, hside]
  · intro hside
    simp [expandGlobalAttribute, hside]

/-- A cluster carrying a single globalAttribute entry with side either. -/
def eitherCluster : XmlCluster :=
  { code := ["0x0101"], name := ["Door Lock"], description := ["desc"],
    define := ["DOOR_LOCK"], domain := ["Closures"], attrs := none,
    command := none, «attribute» := none,
    globalAttribute := some [{ code := "22", side := "either", value := "0x00" }] }

/-- The prepared record for the either cluster. -/
def eitherClusterPrepared : PreparedGlobalAttribute :=
  { code := some 257, manufacturerCode := none,
    globalAttribute :=
      [{ code := some 22, side := "client", value := "0x00" },
       { code := some 22, side := "server", value := "0x00" }] }

/-- Witness for C3: the either entry of the concrete cluster expands to
the client row and the server row with identical code and value. -/
theorem prepareClusterGlobalAttribute_either_expansion_witness :
    expandGlobalAttribute { code := "22", side := "either", value := "0x00" } =
      [{ code := some 22, side := "client", value := "0x00" },
       { code := some 22, side := "server", value := "0x00" }] := by
  have h := prepareClusterGlobalAttribute_either_expansion eitherCluster
    [{ code := "22", side := "either", value := "0x00" }] eitherClusterPrepared rfl (by decide)
  have h2 := (h.2 { code := "22", side := "either", value := "0x00" } (by simp)).1 rfl
  exact h2.trans (by decide)

/-- C5: a command or attribute that does not set a manufacturer code
inherits the owning cluster manufacturer code of the prepared cluster;
one that sets it keeps its own value parsed as an integer; and the
prepared cluster children are built with exactly that cluster code. -/
theorem prepareCluster_manufacturerCode_inheritance :
    ∀ (cluster : XmlCluster) (isExt : Bool),
      ((prepareCluster cluster isExt).manufacturerCode =
        clusterManufacturerCode cluster isExt) ∧
      ((prepareCluster cluster isExt).commands =
        cluster.command.map fun cmds =>
          cmds.map (prepareCommand (clusterManufacturerCode cluster isExt))) ∧
      ((prepareCluster cluster isExt).attributes =
        cluster.«attribute».map fun atts =>
          (atts.map (prepareAttribute (clusterManufacturerCode cluster isExt))).filter
            fun att => att.removedIn.isNone) ∧
      (∀ (mfg : Option JSInt) (command : XmlCommand),
        (command.attrs.manufacturerCode = none →
          (prepareCommand mfg command).manufacturerCode = mfg) ∧
        (∀ s, command.attrs.manufacturerCode = some s →
          (prepareCommand mfg command).manufacturerCode = some (parseIntAuto s))) ∧
      (∀ (mfg : Option JSInt) (att : XmlAttribute),
        (att.attrs.manufacturerCode = none →
          (prepareAttribute mfg att).manufacturerCode = mfg) ∧
        (∀ s, att.attrs.manufacturerCode = some s →
          (prepareAttribute mfg att).manufacturerCode = some (parseIntAuto s))) := by
  intro cluster isExt
  refine ⟨rfl, rfl, rfl, ?_, ?_⟩
  · intro mfg command
    constructor
    · intro h; simp [prepareCommand, h]
    · intro s h; simp [prepareCommand, h]
  · intro mfg att
    constructor
    · intro h; simp [prepareAttribute, h]
    · intro s h; simp [prepareAttribute, h]

/-- A command that does not set its own manufacturer code. -/
def inheritingCommand : XmlCommand :=
  { attrs := { code := "0x00", manufacturerCode := none, name := "Sample",
               source := some "client", optional := none,
               introducedIn := none, removedIn := none },
    description := ["sample command"], arg := none }

/-- Witness for C5: with an owning cluster manufacturer code of 0x1002,
the prepared command inherits exactly that code. -/
theorem prepareCluster_manufacturerCode_inheritance_witness :
    (prepareCommand (some (some 4098)) inheritingCommand).manufacturerCode =
      some (some 4098) :=
  ((prepareCluster_manufacturerCode_inheritance eitherCluster false).2.2.2.1
    (some (some 4098)) inheritingCommand).1 rfl

/-- C7: a declared text default first resolves by exact match among the
option rows of its category; on a miss a numeric value is retried as a
0x-prefixed hex string; when neither attempt matches, the resolution
throws, and any throwing entry makes the whole defaults parse reject
rather than silently skip the default. -/
theorem parseTextDefaults_resolution_order :
    ∀ (db : List OptionRow) (cat : String) (txt : JSVal),
      (∀ row, selectSpecificOptionValue db cat txt = some row →
        parseTextDefaultOne db cat txt = Except.ok row.id) ∧
      (∀ n row, txt = JSVal.num n →
        selectSpecificOptionValue db cat txt = none →
        selectSpecificOptionValue db cat
          (JSVal.str ("0x" ++ jsToStringRadix16 n)) = some row →
        parseTextDefaultOne db cat txt = Except.ok row.id) ∧
      (selectSpecificOptionValue db cat txt = none →
        (∀ n, txt = JSVal.num n →
          selectSpecificOptionValue db cat
            (JSVal.str ("0x" ++ jsToStringRadix16 n)) = none) →
        ∃ msg, parseTextDefaultOne db cat txt = Except.error msg) ∧
      (∀ entries msg, (cat, txt) ∈ entries →
        parseTextDefaultOne db cat txt = Except.error msg →
        ∀ ids, parseTextDefaults db entries ≠ Except.ok ids) := by
  intro db cat txt
  refine ⟨?_, ?_, ?_, ?_⟩
  · intro row h
    simp [parseTextDefaultOne, h]
  · intro n row hn h1 h2
    subst hn
    simp [parseTextDefaultOne, h1, h2]
  · intro h1 h2
    cases txt with
    | str s =>
      exact ⟨"Default value for: " ++ cat ++ "/" ++ s ++ " does not match an option.",
        by simp [parseTextDefaultOne, h1]⟩
    | num n =>
      have h3 := h2 n rfl
      exact ⟨"Default value for: " ++ cat ++ "/" ++ jsValText (JSVal.num n)
          ++ " does not match an option.",
        by simp [parseTextDefaultOne, h1, h3]⟩
  · intro entries msg hmem herr
    revert hmem
    induction entries with
    | nil => intro hmem; cases hmem
    | cons e rest ih =>
      intro hmem ids h
      rcases List.mem_cons.mp hmem with he | hrest
      · rw [← he] at h
        simp only [parseTextDefaults] at h
        rw [herr] at h
        cases h
      · simp only [parseTextDefaults] at h
        cases h1 : parseTextDefaultOne db e.1 e.2 <;> rw [h1] at h
        · cases h
        · cases h2 : parseTextDefaults db rest <;> rw [h2] at h
          · cases h
          · exact ih hrest _ h2

/-- A package option table carrying the hex form of a numeric default. -/
def hexOptionDb : List OptionRow := [{ category := "cat", value := JSVal.str "0x10", id := 7 }]

/-- Witness for C7: the numeric default 16 misses the exact lookup and
resolves through its hex reinterpretation 0x10 to the stored row. -/
theorem parseTextDefaults_resolution_order_witness :
    parseTextDefaultOne hexOptionDb "cat" (JSVal.num 16) = Except.ok 7 :=
  (parseTextDefaults_resolution_order hexOptionDb "cat" (JSVal.num 16)).2.1 16
    { category := "cat", value := JSVal.str "0x10", id := 7 } rfl (by decide) (by decide)

/-- C2: the standalone single-file load is total over every combination
of step outcomes: it always returns a discriminated result, reporting
read, parse, validation and store failures as a failed record and a
complete run as a succeeded record carrying the package id; it never
propagates an exception. -/
theorem loadIndividualSilabsFile_never_throws :
    ∀ env : IndivEnv,
      ((∃ p, loadIndividualSilabsFile env = LoadResult.succeeded p) ∨
        (∃ e, loadIndividualSilabsFile env = LoadResult.failed e)) ∧
      (∀ e, env.readFile = Except.error e →
        loadIndividualSilabsFile env = LoadResult.failed e) ∧
      (∀ c q d e, env.readFile = Except.ok c → env.qualify = Except.ok q →
        q.data = some d → env.parseXml d = Except.error e →
        loadIndividualSilabsFile env = LoadResult.failed e) ∧
      (∀ c q v, env.readFile = Except.ok c → env.qualify = Except.ok q →
        q.data = none → env.boundValidator = some v → (v c).isValid = false →
        loadIndividualSilabsFile env = LoadResult.failed "Validation Failed") ∧
      (∀ c q e, env.readFile = Except.ok c → env.qualify = Except.ok q →
        q.data = none → env.boundValidator = none →
        env.processData = Except.error e →
        loadIndividualSilabsFile env = LoadResult.failed e) ∧
      (∀ c q, env.readFile = Except.ok c → env.qualify = Except.ok q →
        q.data = none → env.boundValidator = none →
        env.processData = Except.ok () → env.postLoading = Except.ok () →
        loadIndividualSilabsFile env = LoadResult.succeeded q.packageId) := by
  intro env
  refine ⟨?_, ?_, ?_, ?_, ?_, ?_⟩
  · cases h : runIndividualLoad env with
    | ok p => exact Or.inl ⟨p, by simp [loadIndividualSilabsFile, h]⟩
    | error e => exact Or.inr ⟨e, by simp [loadIndividualSilabsFile, h]⟩
  · intro e h
    simp [loadIndividualSilabsFile, runIndividualLoad, h]
  · intro c q d e h1 h2 h3 h4
    simp [loadIndividualSilabsFile, runIndividualLoad, h1, h2, h3, h4]
  · intro c q v h1 h2 h3 h4 h5
    simp [loadIndividualSilabsFile, runIndividualLoad, h1, h2, h3, h4, h5]
  · intro c q e h1 h2 h3 h4 h5
    simp [loadIndividualSilabsFile, runIndividualLoad, h1, h2, h3, h4, h5]
  · intro c q h1 h2 h3 h4 h5 h6
    simp [loadIndividualSilabsFile, runIndividualLoad, h1, h2, h3, h4, h5, h6]

/-- An environment in which every step of the standalone load succeeds. -/
def trivialEnv : IndivEnv :=
  { readFile := Except.ok "content"
    qualify := Except.ok { packageId := 42, data := none }
    boundValidator := none
    parseXml := fun _ => Except.ok ()
    processData := Except.ok ()
    postLoading := Except.ok () }

/-- Witness for C2: a completely successful run resolves with the
succeeded record carrying the standalone package id. -/
theorem loadIndividualSilabsFile_never_throws_witness :
    loadIndividualSilabsFile trivialEnv = LoadResult.succeeded 42 :=
  (loadIndividualSilabsFile_never_throws trivialEnv).2.2.2.2.2 "content"
    { packageId := 42, data := none } rfl rfl rfl rfl rfl rfl

/-- A manifest run whose second step fails after inserting rows: the
package row is recorded, then a file fails to parse. -/
def failingManifestRun : List LoadStep :=
  [{ ops := [DbOp.insert "PACKAGE"], err := none },
   { ops := [DbOp.insert "CLUSTER"], err := some "ParseError" }]

/-- C1 counterexample: the claim that a fatal error during loadSilabsZcl
rolls the transaction back and commits nothing is false: in the run
where a file fails to parse after rows were inserted, the rejection is
rethrown, yet the finally clause still commits and no rollback is ever
issued, so the partial package state is committed. -/
theorem loadSilabsZcl_rollback_claim_false :
    ((loadSilabsZcl failingManifestRun).1 = Except.error "ParseError" ∧
      (loadSilabsZcl failingManifestRun).2 =
        [DbOp.beginTransaction, DbOp.insert "PACKAGE", DbOp.insert "CLUSTER",
         DbOp.commit] ∧
      DbOp.rollback ∉ (loadSilabsZcl failingManifestRun).2 ∧
      DbOp.commit ∈ (loadSilabsZcl failingManifestRun).2) ∧
    ¬ (∀ (steps : List LoadStep) (e : String),
        (loadSilabsZcl steps).1 = Except.error e →
        DbOp.rollback ∈ (loadSilabsZcl steps).2 ∧
        DbOp.commit ∉ (loadSilabsZcl steps).2) := by
  refine ⟨⟨rfl, rfl, by decide, by decide⟩, ?_⟩
  intro h
  have hc := h failingManifestRun "ParseError" rfl
  exact hc.2 (by decide)

/-- C1 amended: an unrecovered error during loadSilabsZcl is rethrown to
the caller, but the transaction is not rolled back: the finally clause
commits it unconditionally, so the store operations performed before the
failure are committed inside the transaction. -/
theorem loadSilabsZcl_error_rethrown_but_committed :
    ∀ steps : List LoadStep,
      (∀ s ∈ steps, DbOp.rollback ∉ s.ops) →
      (loadSilabsZcl steps).1 = (runSteps steps).1 ∧
      (loadSilabsZcl steps).2 =
        DbOp.beginTransaction :: ((runSteps steps).2 ++ [DbOp.commit]) ∧
      DbOp.commit ∈ (loadSilabsZcl steps).2 ∧
      DbOp.rollback ∉ (loadSilabsZcl steps).2 := by
  intro steps hsteps
  refine ⟨rfl, rfl, by simp [loadSilabsZcl], ?_⟩
  intro hmem
  simp only [loadSilabsZcl, List.mem_cons, List.mem_append] at hmem
  rcases hmem with h1 | h2 | h3
  · cases h1
  · obtain ⟨s, hs, hop⟩ := runSteps_ops_mem steps DbOp.rollback h2
    exact hsteps s hs hop
  · simp at h3

/-- Witness for the amended C1 at a run whose single step fails: the
error is surfaced, the transaction is committed and never rolled back. -/
theorem loadSilabsZcl_error_rethrown_but_committed_witness :
    DbOp.commit ∈ (loadSilabsZcl [{ ops := [DbOp.insert "PACKAGE"], err := some "boom" }]).2 ∧
    DbOp.rollback ∉ (loadSilabsZcl [{ ops := [DbOp.insert "PACKAGE"], err := some "boom" }]).2 := by
  have h := loadSilabsZcl_error_rethrown_but_committed
    [{ ops := [DbOp.insert "PACKAGE"], err := some "boom" }] (by decide)
  exact ⟨h.2.2.1, h.2.2.2⟩

/-- The schedule in which each file runs its phase-1 and phase-2
insertions with the phase-2 work of file 0 completing before its own
phase-1 work and before file 1 even begins, followed by the deferred
phase-3 thunks. -/
def eagerTraceFiles : List Ev :=
  [Ev.start 1 0, Ev.start 2 0, Ev.finish 2 0, Ev.finish 1 0,
   Ev.start 1 1, Ev.start 2 1, Ev.finish 1 1, Ev.finish 2 1]

/-- The phase-3 tail of the eager schedule. -/
def eagerTraceThunks : List Ev :=
  [Ev.start 3 0, Ev.finish 3 0, Ev.start 3 1, Ev.finish 3 1]

/-- The complete eager schedule. -/
def eagerTrace : List Ev := eagerTraceFiles ++ eagerTraceThunks

/-- C6 counterexample: the code admits a schedule in which a phase-2
insertion of file 0 begins before the phase-1 insertions of file 1, and
even before the phase-1 insertion of file 0 itself, has completed: the
phase-2 promises are initiated in the same synchronous body as the
phase-1 promises, so no barrier separates the two phases. -/
theorem parseZclFiles_phase2_starts_before_phase1_completes :
    parseZclFilesTrace [0, 1] eagerTrace ∧
    ¬ happensBefore eagerTrace (Ev.finish 1 1) (Ev.start 2 0) ∧
    ¬ happensBefore eagerTrace (Ev.finish 1 0) (Ev.start 2 0) := by
  refine ⟨⟨eagerTraceFiles, eagerTraceThunks, rfl, by decide, by decide⟩,
    by decide, by decide⟩

/-- C6 amended: in every schedule the code admits, no phase-3 insertion
of any file begins before every phase-1 and every phase-2 insertion of
every file has completed, because the phase-3 work is deferred as thunks
that are only invoked after the global join; the corresponding barrier
between phase 1 and phase 2 does not exist. -/
theorem parseZclFiles_phase3_after_global_barrier :
    ∀ (files : List Nat) (t : List Ev) (f g : Nat),
      f ∈ files → g ∈ files → parseZclFilesTrace files t →
      happensBefore t (Ev.finish 1 g) (Ev.start 3 f) ∧
      happensBefore t (Ev.finish 2 g) (Ev.start 3 f) := by
  rintro files t f g hf hg ⟨t₁, t₂, rfl, ⟨⟨hnd1, hsub1, hsup1⟩, _⟩, ⟨⟨hnd2, hsub2, hsup2⟩, _⟩⟩
  have hstart2 : Ev.start 3 f ∈ t₂ := by
    refine hsup2 _ ?_
    simp only [List.mem_flatMap, phase3Events]
    exact ⟨f, hf, by simp⟩
  have hstartNot1 : Ev.start 3 f ∉ t₁ := by
    intro hmem
    have hx := hsub1 _ hmem
    simp only [List.mem_flatMap, phase12Events] at hx
    obtain ⟨x, _, hx⟩ := hx
    simp [Ev.start.injEq, Ev.finish.injEq] at hx
  have hidxStart :
      (t₁ ++ t₂).indexOf (Ev.start 3 f) = t₁.length + t₂.indexOf (Ev.start 3 f) :=
    List.indexOf_append_of_not_mem hstartNot1
  have hmemStart : Ev.start 3 f ∈ t₁ ++ t₂ := List.mem_append.mpr (Or.inr hstart2)
  have key : ∀ p, p = 1 ∨ p = 2 →
      happensBefore (t₁ ++ t₂) (Ev.finish p g) (Ev.start 3 f) := by
    intro p hp
    have hfin : Ev.finish p g ∈ t₁ := by
      refine hsup1 _ ?_
      simp only [List.mem_flatMap, phase12Events]
      rcases hp with hp | hp <;> subst hp <;> exact ⟨g, hg, by simp⟩
    have hidxFin : (t₁ ++ t₂).indexOf (Ev.finish p g) = t₁.indexOf (Ev.finish p g) :=
      List.indexOf_append_of_mem hfin
    refine ⟨List.mem_append.mpr (Or.inl hfin), hmemStart, ?_⟩
    rw [hidxFin, hidxStart]
    calc t₁.indexOf (Ev.finish p g) < t₁.length := List.indexOf_lt_length.mpr hfin
    _ ≤ t₁.length + t₂.indexOf (Ev.start 3 f) := Nat.le_add_right _ _
  exact ⟨key 1 (Or.inl rfl), key 2 (Or.inr rfl)⟩

/-- Witness for the amended C6 at the eager schedule: the phase-3 start
of file 0 comes after the phase-1 and phase-2 completions of file 1. -/
theorem parseZclFiles_phase3_after_global_barrier_witness :
    happensBefore eagerTrace (Ev.finish 1 1) (Ev.start 3 0) ∧
    happensBefore eagerTrace (Ev.finish 2 1) (Ev.start 3 0) :=
  parseZclFiles_phase3_after_global_barrier [0, 1] eagerTrace 0 1
    (by decide) (by decide)
    ⟨eagerTraceFiles, eagerTraceThunks, rfl, by decide, by decide⟩

end Zap
